import Mathlib

/-!
Verification development for the `simple-tui` todo-assistant repository.

The development shallowly embeds the components of the tool-calling
orchestration core:

* `src/tools/calculator.ts` — `elementwise`, `runCalculator`;
* `src/server/lib/retry.ts` — `withRetry` (exponential backoff);
* `src/server/db/todoRepository.ts` — `TodoRepository` as a pure store;
* `src/server/ai/tools.ts` — the zod argument validators
  (`AddTodoArgs`, `SelectorSchema`, `DeleteTodoArgs`, `CheckDoneArgs`);
* `src/server/ai/toolExecutor.ts` — `ToolExecutor.execute` and its handlers;
* `src/server/ai/assistantSession.ts` — `runAssistant`, the orchestration
  loop, parameterised by a deterministic chat-completion oracle.

Modelling conventions: JavaScript numbers are modelled as exact rationals
plus an explicit not-a-number value (`JSNumber`); all inputs exercised by
the claims are small integers on which binary64 arithmetic is exact.
Asynchrony and timing are modelled by recording the delays `withRetry`
would await; `Math.random()` and `JSON.parse` are oracle parameters;
`new Date().toISOString()` is a threaded `now : String` argument.
-/

/-- A JavaScript number: an exact rational or NaN.  (Used by the
calculator; binary64 rounding and infinities do not arise on the inputs any
claim touches, so rationals model the arithmetic exactly there.) -/
inductive JSNumber where
  | nan
  | val (q : ℚ)
deriving DecidableEq, Repr

/-- JS `+` on numbers: NaN propagates. -/
def jsAdd : JSNumber → JSNumber → JSNumber
  | JSNumber.val a, JSNumber.val b => JSNumber.val (a + b)
  | _, _ => JSNumber.nan

/-- JS `-` on numbers: NaN propagates. -/
def jsSub : JSNumber → JSNumber → JSNumber
  | JSNumber.val a, JSNumber.val b => JSNumber.val (a - b)
  | _, _ => JSNumber.nan

/-- JS `*` on numbers: NaN propagates. -/
def jsMul : JSNumber → JSNumber → JSNumber
  | JSNumber.val a, JSNumber.val b => JSNumber.val (a * b)
  | _, _ => JSNumber.nan

/-- JS `/` on numbers, as used under the calculator's `v === 0` guard
(the divisor is never zero when this runs): NaN propagates. -/
def jsDiv : JSNumber → JSNumber → JSNumber
  | JSNumber.val a, JSNumber.val b => JSNumber.val (a / b)
  | _, _ => JSNumber.nan

/-- The four operations of `calculator.ts` (`CalculatorArgs.operation`). -/
inductive CalcOp where
  | add
  | subtract
  | multiply
  | divide
deriving DecidableEq, Repr

/-- The per-element lambdas passed to `elementwise` in `runCalculator`'s
switch; `divide` is `(u, v) => v === 0 ? Number.NaN : u / v`. -/
def calcFn : CalcOp → JSNumber → JSNumber → JSNumber
  | CalcOp.add => jsAdd
  | CalcOp.subtract => jsSub
  | CalcOp.multiply => jsMul
  | CalcOp.divide => fun u v =>
      if v = JSNumber.val 0 then JSNumber.nan else jsDiv u v

/-- Result union of `elementwise`: `number[] | 'length_mismatch'`. -/
inductive ElementwiseOut where
  | nums (vs : List JSNumber)
  | lengthMismatch
deriving DecidableEq, Repr

/-- `elementwise(a, b, fn)` from `src/tools/calculator.ts`. -/
def elementwise (a b : List JSNumber) (fn : JSNumber → JSNumber → JSNumber) :
    ElementwiseOut :=
  if a.length = b.length then ElementwiseOut.nums (List.zipWith fn a b)
  else if a.length = 1 then
    ElementwiseOut.nums (b.map (fun v => fn (a.headD JSNumber.nan) v))
  else if b.length = 1 then
    ElementwiseOut.nums (a.map (fun v => fn v (b.headD JSNumber.nan)))
  else ElementwiseOut.lengthMismatch

/-- Arguments of `runCalculator` (`CalculatorArgs`). -/
structure CalculatorArgs where
  operation : CalcOp
  x : List JSNumber
  y : List JSNumber
deriving DecidableEq, Repr

/-- Result union of `runCalculator`:
`{result: number | number[]} | {error: string}`. -/
inductive CalcOutput where
  | result (v : JSNumber)
  | resultArr (vs : List JSNumber)
  | error (msg : String)
deriving DecidableEq, Repr

/-- The trailing `out.length === 1` collapse of `runCalculator`:
a singleton result array is returned as a plain number. -/
def collapseSingleton : List JSNumber → CalcOutput
  | [v] => CalcOutput.result v
  | out => CalcOutput.resultArr out

/-- `runCalculator` from `src/tools/calculator.ts`.  The `Array.isArray`
checks are identically true at this type; the `Unsupported operation`
default of the switch is unreachable because `CalcOp` is closed, exactly
as in the TypeScript type. -/
def runCalculator (args : CalculatorArgs) : CalcOutput :=
  if args.x.length < 1 ∨ args.y.length < 1 then
    CalcOutput.error "x and y must be non-empty arrays of numbers"
  else
    match elementwise args.x args.y (calcFn args.operation) with
    | ElementwiseOut.lengthMismatch =>
        CalcOutput.error
          "Array lengths must match, or one side must have length 1 to broadcast."
    | ElementwiseOut.nums out => collapseSingleton out

example :
    runCalculator ⟨CalcOp.add, [JSNumber.val 5],
      [JSNumber.val 1, JSNumber.val 2, JSNumber.val 3]⟩ =
    CalcOutput.resultArr [JSNumber.val 6, JSNumber.val 7, JSNumber.val 8] := by
  norm_num [runCalculator, elementwise, calcFn, jsAdd, collapseSingleton]

/-- Options of `withRetry` (`RetryOptions` in `src/server/lib/retry.ts`);
`Option.none` models an absent (`undefined`) field, so that `getD`
renders the `??` defaults of the source. -/
structure RetryOptions where
  tries : Option Nat
  baseMs : Option ℚ
  factor : Option ℚ
  jitter : Option Bool
deriving Repr

/-- Observable behaviour of one `withRetry` run: how many times the
wrapped operation was invoked, the delays awaited between attempts (in
milliseconds), and the final outcome.  `Except.error Option.none` models
`throw lastError` with `lastError` still `undefined` (only reachable when
`tries = 0`). -/
structure RetryTrace (E T : Type) where
  calls : Nat
  delays : List ℚ
  outcome : Except (Option E) T
deriving Repr

/-- Loop body of `withRetry`.  `fn k` is the outcome of the `k`-th
invocation of the wrapped operation (0-based), `rand k` the value of
`Math.random()` drawn before the `k`-th delay.  `remaining` is
`tries - attempt`; the source's `attempt += 1; if (attempt >= tries) break`
is rendered by the `remaining = 1` case. -/
def withRetryGo {E T : Type} (fn : Nat → Except E T) (baseMs factor : ℚ)
    (jitter : Bool) (rand : Nat → ℚ) :
    Nat → Nat → Option E → RetryTrace E T
  | 0, attempt, lastErr => ⟨attempt, [], Except.error lastErr⟩
  | remaining + 1, attempt, _ =>
    match fn attempt with
    | Except.ok v => ⟨attempt + 1, [], Except.ok v⟩
    | Except.error e =>
      if remaining = 0 then ⟨attempt + 1, [], Except.error (some e)⟩
      else
        let wait := baseMs * factor ^ attempt
        let delay := if jitter then wait * (1/2 + rand attempt) else wait
        let rest := withRetryGo fn baseMs factor jitter rand remaining
          (attempt + 1) (some e)
        ⟨rest.calls, delay :: rest.delays, rest.outcome⟩

/-- `withRetry` from `src/server/lib/retry.ts`: defaults `tries = 3`,
`baseMs = 250`, `factor = 2`, `jitter = true`; after the `attempt`-th
failure (1-based) with attempts remaining it waits
`baseMs * factor ^ (attempt - 1)`, scaled by `0.5 + Math.random()` when
jitter is on. -/
def withRetry {E T : Type} (fn : Nat → Except E T) (opts : RetryOptions)
    (rand : Nat → ℚ) : RetryTrace E T :=
  withRetryGo fn (opts.baseMs.getD 250) (opts.factor.getD 2)
    (opts.jitter.getD true) rand (opts.tries.getD 3) 0 none

example :
    (withRetry (fun _ => (Except.error 0 : Except Nat Nat))
      ⟨none, none, none, some false⟩ (fun _ => 0)).delays = [250, 500] := by
  norm_num [withRetry, withRetryGo]

/-- A row of the `todos` table (`TodoRecord` in
`src/server/db/todoRepository.ts`): `priority` and `done` are the stored
0/1 integers, timestamps are ISO strings. -/
structure TodoRecord where
  id : Nat
  title : String
  description : Option String
  due_date : Option String
  priority : Nat
  done : Nat
  created_at : String
  updated_at : String
deriving DecidableEq, Repr

/-- Arguments of `TodoRepository.create` (`CreateTodoArgs`). -/
structure CreateTodoArgs where
  title : String
  description : Option String
  due_date : Option String
  priority : Nat
deriving DecidableEq, Repr

/-- The SQLite-backed store as a value: the rows of `todos` in insertion
order plus the next `AUTOINCREMENT` rowid. -/
structure TodoStore where
  todos : List TodoRecord
  nextId : Nat
deriving DecidableEq, Repr

/-- `findById`: `SELECT * FROM todos WHERE id = ?` followed by `.get`
(first matching row). -/
def TodoStore.findById (s : TodoStore) (id : Nat) : Option TodoRecord :=
  s.todos.find? (fun t => t.id = id)

/-- `findByExactTitle`: `SELECT * FROM todos WHERE title = ?` with
SQLite's default (case-sensitive, exact) string equality. -/
def TodoStore.findByExactTitle (s : TodoStore) (title : String) :
    List TodoRecord :=
  s.todos.filter (fun t => t.title = title)

/-- `create`: inserts the row with `done = 0`, both timestamps `now`, a
fresh autoincrement id, then rereads it by id (`findById(id)!`). -/
def TodoStore.create (s : TodoStore) (args : CreateTodoArgs) (now : String) :
    TodoRecord × TodoStore :=
  let row : TodoRecord :=
    { id := s.nextId, title := args.title, description := args.description,
      due_date := args.due_date, priority := args.priority, done := 0,
      created_at := now, updated_at := now }
  (row, { todos := s.todos ++ [row], nextId := s.nextId + 1 })

/-- `deleteById`: `DELETE FROM todos WHERE id = ?`, reporting
`changes === 1`. -/
def TodoStore.deleteById (s : TodoStore) (id : Nat) : Bool × TodoStore :=
  let changes := (s.todos.filter (fun t => t.id = id)).length
  (changes = 1, { s with todos := s.todos.filter (fun t => ¬t.id = id) })

/-- `markDoneById`: `UPDATE todos SET done = ?, updated_at = ? WHERE id = ?`;
if `changes !== 1` the result is `undefined`, otherwise the row is reread
by `findById`. -/
def TodoStore.markDoneById (s : TodoStore) (id : Nat) (done : Bool)
    (now : String) : Option TodoRecord × TodoStore :=
  let changes := (s.todos.filter (fun t => t.id = id)).length
  let s' : TodoStore :=
    { s with
      todos := s.todos.map (fun t =>
        if t.id = id then
          { t with done := if done then 1 else 0, updated_at := now }
        else t) }
  (if changes = 1 then s'.findById id else none, s')

/-- A JSON value, as produced by `JSON.parse`; numbers are exact
rationals (JSON text cannot denote NaN or infinities). -/
inductive Json where
  | null
  | bool (b : Bool)
  | num (q : ℚ)
  | str (s : String)
  | arr (elems : List Json)
  | obj (fields : List (String × Json))
deriving Repr

/-- Field lookup on a parsed JSON object (keys of a `JSON.parse` result
are unique, so first match suffices); `Option.none` doubles for a
missing key and for a non-object. -/
def Json.getField : Json → String → Option Json
  | Json.obj fields, key =>
      (fields.find? (fun f => f.fst = key)).map (fun f => f.snd)
  | _, _ => none

/-- Key list of a JSON object (empty for non-objects). -/
def Json.keys : Json → List String
  | Json.obj fields => fields.map (fun f => f.fst)
  | _ => []

/-- `String.prototype.trim`: strip leading and trailing whitespace (the
claims only exercise ASCII whitespace). -/
def jsTrim (s : String) : String :=
  String.mk
    (((s.toList.dropWhile Char.isWhitespace).reverse.dropWhile
      Char.isWhitespace).reverse)

/-- The regex `^\d{4}-\d{2}-\d{2}$` of `src/server/ai/tools.ts`. -/
def isoDateOnly (s : String) : Bool :=
  match s.toList with
  | [a, b, c, d, '-', e, f, '-', g, h] =>
      [a, b, c, d, e, f, g, h].all Char.isDigit
  | _ => false

/-- Decoded `AddTodoArgs` (the zod output type `AddTodoInput`). -/
structure AddTodoInput where
  title : String
  description : Option String
  due_date : Option String
  priority : Nat
deriving DecidableEq, Repr

/-- Selector discriminant: `kind` of the `SelectorSchema` enum. -/
inductive SelKind where
  | id
  | title
deriving DecidableEq, Repr

/-- Decoded `SelectorSchema` output: `id`/`title` are `null` when not
supplied (the schema defaults them to `null`). -/
structure Selector where
  kind : SelKind
  id : Option Nat
  title : Option String
deriving DecidableEq, Repr

/-- Decoded `DeleteTodoArgs`. -/
structure DeleteTodoInput where
  selector : Selector
deriving DecidableEq, Repr

/-- Decoded `CheckDoneArgs` (`done` defaults to `true`). -/
structure CheckDoneInput where
  selector : Selector
  done : Bool
deriving DecidableEq, Repr

/-- The zod `SelectorSchema` of `src/server/ai/tools.ts`: a strict object
`{kind ∈ {id, title}, id : positive int | null (default null),
title : string 1..200 | null (default null)}` with the `superRefine`
requiring the field matching `kind` to be present (and the title
non-blank).  Error strings are representative of the zod issue texts; the
claims only inspect failure versus success and the executor's own
prefixes.  A parsed positive integer id is carried as a `Nat`. -/
def SelectorSchema.parse (j : Json) : Except String Selector :=
  match j with
  | Json.obj _ =>
    if (Json.keys j).all (fun k => k == "kind" || k == "id" || k == "title") then do
      let kind ← match j.getField "kind" with
        | some (Json.str "id") => Except.ok SelKind.id
        | some (Json.str "title") => Except.ok SelKind.title
        | some _ => Except.error "Invalid enum value for selector.kind"
        | none => Except.error "selector.kind is required"
      let id ← match j.getField "id" with
        | none => Except.ok (none : Option Nat)
        | some Json.null => Except.ok (none : Option Nat)
        | some (Json.num q) =>
            if q.den = 1 ∧ 0 < q.num then Except.ok (some q.num.toNat)
            else Except.error "selector.id must be a positive integer"
        | some _ => Except.error "Expected number or null for selector.id"
      let title ← match j.getField "title" with
        | none => Except.ok (none : Option String)
        | some Json.null => Except.ok (none : Option String)
        | some (Json.str t) =>
            if 1 ≤ t.length ∧ t.length ≤ 200 then Except.ok (some t)
            else Except.error "selector.title must be 1 to 200 characters"
        | some _ => Except.error "Expected string or null for selector.title"
      if kind = SelKind.id ∧ id = none then
        Except.error "Provide the numeric id when selector.kind is \x22id\x22."
      else if kind = SelKind.title ∧ (title = none ∨ jsTrim (title.getD "") = "") then
        Except.error "Provide the exact title when selector.kind is \x22title\x22."
      else
        Except.ok { kind := kind, id := id, title := title }
    else Except.error "Unrecognized key(s) in selector object"
  | _ => Except.error "Expected object for selector"

/-- The zod `AddTodoArgs` of `src/server/ai/tools.ts`: a (non-strict)
object with `title : string 1..200`, `description : string ≥1 | null |
absent`, `due_date` a string passing the ISO-date regex or the host's
`Date.parse` (abstracted as the `dateParse` oracle), `priority ∈ {0,1}`
defaulting to `0`. -/
def AddTodoArgs.parse (dateParse : String → Bool) (j : Json) :
    Except String AddTodoInput :=
  match j with
  | Json.obj _ => do
    let title ← match j.getField "title" with
      | some (Json.str t) =>
          if 1 ≤ t.length ∧ t.length ≤ 200 then Except.ok t
          else Except.error "title must be 1 to 200 characters"
      | some _ => Except.error "Expected string for title"
      | none => Except.error "title is required"
    let description ← match j.getField "description" with
      | none => Except.ok (none : Option String)
      | some Json.null => Except.ok (none : Option String)
      | some (Json.str d) =>
          if 1 ≤ d.length then Except.ok (some d)
          else Except.error "description must contain at least 1 character"
      | some _ => Except.error "Expected string or null for description"
    let due_date ← match j.getField "due_date" with
      | none => Except.ok (none : Option String)
      | some Json.null => Except.ok (none : Option String)
      | some (Json.str s) =>
          if isoDateOnly s || dateParse s then Except.ok (some s)
          else Except.error "Due date must be ISO 8601 date (YYYY-MM-DD) or datetime."
      | some _ => Except.error "Expected string or null for due_date"
    let priority ← match j.getField "priority" with
      | none => Except.ok 0
      | some (Json.num q) =>
          if q = 0 then Except.ok 0
          else if q = 1 then Except.ok 1
          else Except.error "priority must be 0 or 1"
      | some _ => Except.error "priority must be 0 or 1"
    Except.ok { title := title, description := description,
                due_date := due_date, priority := priority }
  | _ => Except.error "Expected object for add_todo arguments"

/-- The zod `DeleteTodoArgs`: a strict object `{selector}`. -/
def DeleteTodoArgs.parse (j : Json) : Except String DeleteTodoInput :=
  match j with
  | Json.obj _ =>
    if (Json.keys j).all (fun k => k == "selector") then
      match j.getField "selector" with
      | some sel => (SelectorSchema.parse sel).map (fun s => { selector := s })
      | none => Except.error "selector is required"
    else Except.error "Unrecognized key(s) in delete_todo arguments"
  | _ => Except.error "Expected object for delete_todo arguments"

/-- The zod `CheckDoneArgs`: a strict object `{selector, done}` with
`done : boolean` defaulting to `true`. -/
def CheckDoneArgs.parse (j : Json) : Except String CheckDoneInput :=
  match j with
  | Json.obj _ =>
    if (Json.keys j).all (fun k => k == "selector" || k == "done") then do
      let sel ← match j.getField "selector" with
        | some sel => SelectorSchema.parse sel
        | none => Except.error "selector is required"
      let done ← match j.getField "done" with
        | none => Except.ok true
        | some (Json.bool b) => Except.ok b
        | some _ => Except.error "Expected boolean for done"
      Except.ok { selector := sel, done := done }
    else Except.error "Unrecognized key(s) in check_done arguments"
  | _ => Except.error "Expected object for check_done arguments"

/-- Public view of a todo (`toModelView` output): `done` is the boolean
derived from the stored 0/1 flag via `todo.done === 1`. -/
structure TodoView where
  id : Nat
  title : String
  description : Option String
  due_date : Option String
  priority : Nat
  done : Bool
  created_at : String
  updated_at : String
deriving DecidableEq, Repr

/-- Success payloads of the three todo tools (`data` shapes produced by
`handleAdd` / `handleDelete` / `handleCheck`). -/
inductive ToolData where
  | add (todo : TodoView)
  | delete (id : Nat)
  | check (todo : TodoView)
deriving DecidableEq, Repr

/-- `ToolExecutionResult`: `{ok: true, data}` or `{ok: false, message}`. -/
inductive ToolExecutionResult where
  | ok (data : ToolData)
  | err (message : String)
deriving DecidableEq, Repr

/-- The `ok` flag of a `ToolExecutionResult`. -/
def ToolExecutionResult.isOk : ToolExecutionResult → Bool
  | ToolExecutionResult.ok _ => true
  | ToolExecutionResult.err _ => false

/-- The `message` of an error result (empty for successes, which carry
no message field). -/
def ToolExecutionResult.message : ToolExecutionResult → String
  | ToolExecutionResult.ok _ => ""
  | ToolExecutionResult.err m => m

/-- `ToolExecutor.toModelView` from `src/server/ai/toolExecutor.ts`. -/
def toModelView (t : TodoRecord) : TodoView :=
  { id := t.id, title := t.title, description := t.description,
    due_date := t.due_date, priority := t.priority, done := t.done == 1,
    created_at := t.created_at, updated_at := t.updated_at }

/-- `ToolExecutor.resolveId`: returns the target id, or the error message
string (`number | string` in the source; `Except` renders the union).
The source tests `candidates.length === 0`, then `> 1`, else takes
`candidates[0]`; the three list shapes render exactly those branches.
`args.title?.trim()` followed by the falsiness test `!title` is rendered
by the `none` case plus the test for the trimmed-empty string. -/
def ToolExecutor.resolveId (s : TodoStore) (sel : Selector) :
    Except String Nat :=
  match sel.kind with
  | SelKind.id =>
    match sel.id with
    | some n => Except.ok n
    | none =>
        Except.error "Missing identifier. Provide a numeric id when using the id selector."
  | SelKind.title =>
    match sel.title with
    | none =>
        Except.error "Missing identifier. Provide an exact title when using the title selector."
    | some rawTitle =>
      let title := jsTrim rawTitle
      if title = "" then
        Except.error "Missing identifier. Provide an exact title when using the title selector."
      else
        match s.findByExactTitle title with
        | [] => Except.error "No todo exists with that exact title."
        | [c] => Except.ok c.id
        | _ :: _ :: _ =>
            Except.error "Multiple todos share that title. Ask the user for the id to disambiguate."

/-- `ToolExecutor.handleAdd`; the surrounding `Except` carries a zod
validation exception up to `execute`'s catch. -/
def ToolExecutor.handleAdd (dateParse : String → Bool) (raw : Json)
    (s : TodoStore) (now : String) :
    Except String (ToolExecutionResult × TodoStore) := do
  let args ← AddTodoArgs.parse dateParse raw
  let (todo, s') := s.create
    { title := args.title, description := args.description,
      due_date := args.due_date, priority := args.priority } now
  Except.ok (ToolExecutionResult.ok (ToolData.add (toModelView todo)), s')

/-- `ToolExecutor.handleDelete`. -/
def ToolExecutor.handleDelete (raw : Json) (s : TodoStore) :
    Except String (ToolExecutionResult × TodoStore) := do
  let args ← DeleteTodoArgs.parse raw
  match ToolExecutor.resolveId s args.selector with
  | Except.error m => Except.ok (ToolExecutionResult.err m, s)
  | Except.ok id =>
    let (removed, s') := s.deleteById id
    if removed then
      Except.ok (ToolExecutionResult.ok (ToolData.delete id), s')
    else
      Except.ok (ToolExecutionResult.err "No todo exists with that id.", s')

/-- `ToolExecutor.handleCheck`; `args.done ?? true` is already resolved
by the zod default, matching the source where `args.done` is never
nullish after `CheckDoneArgs.parse`. -/
def ToolExecutor.handleCheck (raw : Json) (s : TodoStore) (now : String) :
    Except String (ToolExecutionResult × TodoStore) := do
  let args ← CheckDoneArgs.parse raw
  match ToolExecutor.resolveId s args.selector with
  | Except.error m => Except.ok (ToolExecutionResult.err m, s)
  | Except.ok id =>
    let (updated, s') := s.markDoneById id args.done now
    match updated with
    | none => Except.ok (ToolExecutionResult.err "No todo exists with that id.", s')
    | some t => Except.ok (ToolExecutionResult.ok (ToolData.check (toModelView t)), s')

/-- `ToolExecutor.execute` from `src/server/ai/toolExecutor.ts`: name
dispatch, with any validation exception caught and converted to
`{ok:false, message: "Validation error: <cause>"}`.  (The zod errors the
handlers raise are `Error` instances, so the source's non-`Error` catch
arm is unreachable.) -/
def ToolExecutor.execute (dateParse : String → Bool) (name : String)
    (raw : Json) (s : TodoStore) (now : String) :
    ToolExecutionResult × TodoStore :=
  let attempted : Except String (ToolExecutionResult × TodoStore) :=
    match name with
    | "add_todo" => ToolExecutor.handleAdd dateParse raw s now
    | "delete_todo" => ToolExecutor.handleDelete raw s
    | "check_done" => ToolExecutor.handleCheck raw s now
    | _ => Except.ok (ToolExecutionResult.err ("Unknown tool: " ++ name), s)
  match attempted with
  | Except.ok r => r
  | Except.error m => (ToolExecutionResult.err ("Validation error: " ++ m), s)

/-- JSON string escaping as performed by `JSON.stringify` for the
characters arising in this development. -/
def Json.escapeString (s : String) : String :=
  s.toList.foldl (fun acc c =>
    acc ++ (if c = '"' then "\\\"" else if c = '\\' then "\\\\"
            else if c = '\n' then "\\n" else String.singleton c)) ""

mutual

/-- `JSON.stringify` over parsed JSON values (integers print without a
fractional part; non-integer rationals print as `num/den`, which no
claim inspects). -/
def Json.stringify : Json → String
  | Json.null => "null"
  | Json.bool true => "true"
  | Json.bool false => "false"
  | Json.num q => if q.den = 1 then toString q.num else toString q
  | Json.str s => "\x22" ++ Json.escapeString s ++ "\x22"
  | Json.arr elems => "[" ++ Json.stringifyElems elems ++ "]"
  | Json.obj fields => "\x7b" ++ Json.stringifyFields fields ++ "\x7d"

/-- Comma-separated serialization of array elements. -/
def Json.stringifyElems : List Json → String
  | [] => ""
  | [j] => Json.stringify j
  | j :: rest => Json.stringify j ++ "," ++ Json.stringifyElems rest

/-- Comma-separated serialization of object fields, in insertion order. -/
def Json.stringifyFields : List (String × Json) → String
  | [] => ""
  | [(k, v)] => "\x22" ++ Json.escapeString k ++ "\x22:" ++ Json.stringify v
  | (k, v) :: rest =>
      "\x22" ++ Json.escapeString k ++ "\x22:" ++ Json.stringify v ++ ","
        ++ Json.stringifyFields rest

end

/-- JSON encoding of `toModelView`'s output, field order as constructed. -/
def TodoView.toJson (v : TodoView) : Json :=
  Json.obj
    [("id", Json.num v.id), ("title", Json.str v.title),
     ("description", match v.description with
       | some d => Json.str d
       | none => Json.null),
     ("due_date", match v.due_date with
       | some d => Json.str d
       | none => Json.null),
     ("priority", Json.num v.priority), ("done", Json.bool v.done),
     ("created_at", Json.str v.created_at),
     ("updated_at", Json.str v.updated_at)]

/-- JSON encoding of the success payloads built by the handlers. -/
def ToolData.toJson : ToolData → Json
  | ToolData.add t => Json.obj [("action", Json.str "add"), ("todo", t.toJson)]
  | ToolData.delete id =>
      Json.obj [("action", Json.str "delete"), ("id", Json.num id)]
  | ToolData.check t => Json.obj [("action", Json.str "check"), ("todo", t.toJson)]

/-- JSON encoding of a `ToolExecutionResult` envelope. -/
def ToolExecutionResult.toJson : ToolExecutionResult → Json
  | ToolExecutionResult.ok d => Json.obj [("ok", Json.bool true), ("data", d.toJson)]
  | ToolExecutionResult.err m =>
      Json.obj [("ok", Json.bool false), ("message", Json.str m)]

/-- `JSON.stringify(result)` as used for tool message content. -/
def stringifyResult (r : ToolExecutionResult) : String :=
  r.toJson.stringify

/-- A tool call emitted by the model: `{id, function: {name, arguments}}`
with `arguments` raw text. -/
structure ToolCall where
  id : String
  name : String
  arguments : String
deriving DecidableEq, Repr

/-- A `ChatMessage` of the conversation history. -/
inductive Message where
  | system (content : String)
  | user (content : Option String)
  | assistant (content : Option String) (tool_calls : Option (List ToolCall))
  | tool (tool_call_id : String) (content : String)
deriving DecidableEq, Repr

/-- The message of `choices[0]` once the `?? {}` / `?? []` normalizations
are applied: optional text and a (possibly empty) list of tool calls. -/
structure ChoiceMessage where
  content : Option String
  tool_calls : List ToolCall
deriving DecidableEq, Repr

/-- A chat-completion response; `choice = none` models any shape where
`choices?.[0]?.message` is absent. -/
structure ChatResponse where
  choice : Option ChoiceMessage
deriving DecidableEq, Repr

/-- `(response as any).choices?.[0]?.message ?? {}`. -/
def responseMessage (r : ChatResponse) : ChoiceMessage :=
  r.choice.getD { content := none, tool_calls := [] }

/-- The `tool_choice` values used by `runAssistant`. -/
inductive ToolChoice where
  | auto
  | none
deriving DecidableEq, Repr

/-- `MAX_TOOL_LOOPS` from `src/server/ai/assistantSession.ts`. -/
def MAX_TOOL_LOOPS : Nat := 6

/-- Observable data of one loop iteration: the tool-choice mode sent,
the raw response, the assistant message appended, and the tool messages
and execution results produced for that response's tool calls. -/
structure IterationRecord where
  toolChoice : ToolChoice
  response : ChatResponse
  assistantMessage : Message
  toolMessages : List Message
  results : List ToolExecutionResult
deriving DecidableEq, Repr

/-- Final outcome of `runAssistant`: a normal return (final text, full
history, final store) or the `Assistant exceeded maximum tool iterations`
error. -/
inductive RunOutcome where
  | done (content : String) (messages : List Message) (store : TodoStore)
  | exceeded
deriving DecidableEq, Repr

/-- A whole run: the per-iteration records in order plus the outcome. -/
structure RunTrace where
  iterations : List IterationRecord
  outcome : RunOutcome
deriving DecidableEq, Repr

/-- The `for (const call of toolCalls)` body of `runAssistant`:
sequentially, each call's raw `arguments` text is parsed (`JSON.parse`
modelled by the `parseJson` oracle; the empty string skips parsing and
yields `{}`), a parse failure yields the fixed negative result without
invoking the executor, and otherwise the executor runs; every call
appends exactly one tool message carrying its call id and the serialized
result. -/
def processToolCalls (parseJson : String → Option Json)
    (exec : String → Json → TodoStore → ToolExecutionResult × TodoStore) :
    List ToolCall → TodoStore →
      List Message × List ToolExecutionResult × TodoStore
  | [], s => ([], [], s)
  | call :: rest, s =>
    let step : ToolExecutionResult × TodoStore :=
      if call.arguments = "" then exec call.name (Json.obj []) s
      else
        match parseJson call.arguments with
        | some parsed => exec call.name parsed s
        | Option.none =>
            (ToolExecutionResult.err "Invalid JSON arguments supplied to tool.", s)
    let msg := Message.tool call.id (stringifyResult step.fst)
    let restOut := processToolCalls parseJson exec rest step.snd
    (msg :: restOut.fst, step.fst :: restOut.snd.fst, restOut.snd.snd)

/-- The tool-choice update at the end of each iteration of
`runAssistant`: `allSucceeded = executionResults.every((r) => r.ok);
toolChoice = allSucceeded ? 'none' : 'auto'`. -/
def nextToolChoice (executionResults : List ToolExecutionResult) : ToolChoice :=
  if executionResults.all ToolExecutionResult.isOk then ToolChoice.none
  else ToolChoice.auto

/-- The `while (iteration < MAX_TOOL_LOOPS)` loop of `runAssistant`,
with the remaining iteration budget as fuel.  The chat-completion
service (behind `withRetry`) is the deterministic oracle `client`;
a run in which some retried network call ultimately fails aborts before
any further model call and is not traced here. -/
def runAssistantAux (client : List Message → ToolChoice → ChatResponse)
    (parseJson : String → Option Json)
    (exec : String → Json → TodoStore → ToolExecutionResult × TodoStore) :
    Nat → List Message → ToolChoice → TodoStore → RunTrace
  | 0, _, _, _ => { iterations := [], outcome := RunOutcome.exceeded }
  | fuel + 1, msgs, tc, store =>
    let resp := client msgs tc
    let choice := responseMessage resp
    let toolCalls := choice.tool_calls
    let assistantMsg := Message.assistant choice.content
      (if toolCalls.isEmpty then none else some toolCalls)
    let msgs1 := msgs ++ [assistantMsg]
    if toolCalls.isEmpty then
      let iterRec : IterationRecord :=
        { toolChoice := tc, response := resp, assistantMessage := assistantMsg,
          toolMessages := [], results := [] }
      { iterations := [iterRec],
        outcome := RunOutcome.done (choice.content.getD "") msgs1 store }
    else
      let out := processToolCalls parseJson exec toolCalls store
      let tc' := nextToolChoice out.snd.fst
      let rest := runAssistantAux client parseJson exec fuel
        (msgs1 ++ out.fst) tc' out.snd.snd
      let iterRec : IterationRecord :=
        { toolChoice := tc, response := resp, assistantMessage := assistantMsg,
          toolMessages := out.fst, results := out.snd.fst }
      { iterations := iterRec :: rest.iterations,
        outcome := rest.outcome }

/-- `runAssistant` from `src/server/ai/assistantSession.ts`: starts with
`tool_choice = auto` and the caller's message list, runs at most
`MAX_TOOL_LOOPS` iterations. -/
def runAssistant (client : List Message → ToolChoice → ChatResponse)
    (parseJson : String → Option Json)
    (exec : String → Json → TodoStore → ToolExecutionResult × TodoStore)
    (initialMessages : List Message) (store : TodoStore) : RunTrace :=
  runAssistantAux client parseJson exec MAX_TOOL_LOOPS initialMessages
    ToolChoice.auto store

/-- C7: for every calculator invocation with two non-empty numeric
arrays, equal lengths apply the operator element-wise (a singleton output
collapsing to a scalar), a single-element side is broadcast across the
other, unequal lengths both above one yield the length-mismatch error
value rather than an exception, and for divide a zero divisor yields NaN;
in particular `add([5],[1,2,3]) = [6,7,8]`, `divide([1],[0])` is NaN, and
`add([1,2],[1,2,3])` is the length-mismatch error. -/
theorem calculator_broadcast_mismatch_divzero :
    (∀ (op : CalcOp) (x y : List JSNumber), x ≠ [] → x.length = y.length →
        runCalculator ⟨op, x, y⟩ =
          collapseSingleton (List.zipWith (calcFn op) x y)) ∧
    (∀ (op : CalcOp) (u : JSNumber) (y : List JSNumber), y ≠ [] →
        runCalculator ⟨op, [u], y⟩ =
          collapseSingleton (y.map (fun v => calcFn op u v))) ∧
    (∀ (op : CalcOp) (x : List JSNumber) (v : JSNumber), x ≠ [] →
        runCalculator ⟨op, x, [v]⟩ =
          collapseSingleton (x.map (fun u => calcFn op u v))) ∧
    (∀ (op : CalcOp) (x y : List JSNumber), 1 < x.length → 1 < y.length →
        x.length ≠ y.length →
        runCalculator ⟨op, x, y⟩ =
          CalcOutput.error
            "Array lengths must match, or one side must have length 1 to broadcast.") ∧
    (∀ u : JSNumber, calcFn CalcOp.divide u (JSNumber.val 0) = JSNumber.nan) ∧
    runCalculator ⟨CalcOp.add, [JSNumber.val 5],
        [JSNumber.val 1, JSNumber.val 2, JSNumber.val 3]⟩ =
      CalcOutput.resultArr [JSNumber.val 6, JSNumber.val 7, JSNumber.val 8] ∧
    runCalculator ⟨CalcOp.divide, [JSNumber.val 1], [JSNumber.val 0]⟩ =
      CalcOutput.result JSNumber.nan ∧
    runCalculator ⟨CalcOp.add, [JSNumber.val 1, JSNumber.val 2],
        [JSNumber.val 1, JSNumber.val 2, JSNumber.val 3]⟩ =
      CalcOutput.error
        "Array lengths must match, or one side must have length 1 to broadcast." := by
  refine ⟨?_, ?_, ?_, ?_, ?_, ?_, ?_, ?_⟩
  · intro op x y hx hlen
    have hx0 : x.length ≠ 0 := fun h => hx (List.length_eq_zero.mp h)
    have hx1 : ¬ x.length < 1 := by omega
    have hy1 : ¬ y.length < 1 := by omega
    simp [runCalculator, elementwise, hlen, hx1, hy1]
  · intro op u y hy
    have hy0 : y.length ≠ 0 := fun h => hy (List.length_eq_zero.mp h)
    have hy1 : ¬ y.length < 1 := by omega
    match y, hy with
    | [v], _ => simp [runCalculator, elementwise]
    | v :: w :: ys, _ => simp [runCalculator, elementwise]
  · intro op x v hx
    have hx0 : x.length ≠ 0 := fun h => hx (List.length_eq_zero.mp h)
    have hx1 : ¬ x.length < 1 := by omega
    match x, hx with
    | [u], _ => simp [runCalculator, elementwise]
    | u :: w :: xs, _ =>
      have hne : ¬ (u :: w :: xs).length = 1 := by simp
      simp [runCalculator, elementwise, hne]
  · intro op x y hx hy hne
    have hx1 : ¬ x.length < 1 := by omega
    have hy1 : ¬ y.length < 1 := by omega
    have hx2 : ¬ x.length = 1 := by omega
    have hy2 : ¬ y.length = 1 := by omega
    simp [runCalculator, elementwise, hx1, hy1, hx2, hy2, hne]
  · intro u
    simp [calcFn]
  · norm_num [runCalculator, elementwise, calcFn, jsAdd, collapseSingleton]
  · norm_num [runCalculator, elementwise, calcFn, jsDiv, collapseSingleton]
  · norm_num [runCalculator, elementwise]

/-- Witness for C7: the equal-length and broadcast clauses evaluated on
concrete arrays. -/
theorem calculator_broadcast_mismatch_divzero_witness :
    ([JSNumber.val 2, JSNumber.val 3] ≠ ([] : List JSNumber)) ∧
    runCalculator ⟨CalcOp.multiply, [JSNumber.val 2, JSNumber.val 3],
        [JSNumber.val 4, JSNumber.val 5]⟩ =
      collapseSingleton (List.zipWith (calcFn CalcOp.multiply)
        [JSNumber.val 2, JSNumber.val 3] [JSNumber.val 4, JSNumber.val 5]) :=
  ⟨by simp,
   calculator_broadcast_mismatch_divzero.1 CalcOp.multiply
     [JSNumber.val 2, JSNumber.val 3] [JSNumber.val 4, JSNumber.val 5]
     (by simp) (by simp)⟩

/-- The backoff schedule `withRetry` produces: `n` delays starting at
failed attempt number `start + 1`, the `k`-th being
`baseMs * factor ^ (start + k)` scaled by `0.5 + rand` under jitter. -/
def expectedDelays (baseMs factor : ℚ) (jitter : Bool) (rand : Nat → ℚ) :
    Nat → Nat → List ℚ
  | _, 0 => []
  | start, n + 1 =>
      (if jitter then baseMs * factor ^ start * (1/2 + rand start)
       else baseMs * factor ^ start)
        :: expectedDelays baseMs factor jitter rand (start + 1) n

lemma withRetryGo_calls_le {E T : Type} (fn : Nat → Except E T) (b f : ℚ)
    (jit : Bool) (rand : Nat → ℚ) :
    ∀ (r attempt : Nat) (lastErr : Option E),
      (withRetryGo fn b f jit rand r attempt lastErr).calls ≤ attempt + r := by
  intro r
  induction r with
  | zero => intro attempt lastErr; simp [withRetryGo]
  | succ r ih =>
    intro attempt lastErr
    simp only [withRetryGo]
    cases hfa : fn attempt with
    | ok v => simp
    | error e =>
      by_cases hr : r = 0
      · subst hr; simp
      · simp only [hr, if_false]
        have := ih (attempt + 1) (some e)
        simpa using Nat.le_trans this (by omega)

lemma withRetryGo_allFail {E T : Type} (fn : Nat → Except E T) (b f : ℚ)
    (jit : Bool) (rand : Nat → ℚ) (e : Nat → E) :
    ∀ (r attempt : Nat) (lastErr : Option E), 0 < r →
      (∀ k, attempt ≤ k → k < attempt + r → fn k = Except.error (e k)) →
      withRetryGo fn b f jit rand r attempt lastErr =
        ⟨attempt + r, expectedDelays b f jit rand attempt (r - 1),
         Except.error (some (e (attempt + r - 1)))⟩ := by
  intro r
  induction r with
  | zero => intro attempt lastErr h; omega
  | succ r ih =>
    intro attempt lastErr _ herr
    have hfa : fn attempt = Except.error (e attempt) :=
      herr attempt (Nat.le_refl _) (by omega)
    by_cases hr : r = 0
    · subst hr
      simp [withRetryGo, hfa, expectedDelays]
    · have hrec := ih (attempt + 1) (some (e attempt)) (Nat.pos_of_ne_zero hr)
        (fun k hk1 hk2 => herr k (by omega) (by omega))
      simp only [withRetryGo, hfa, hr, if_false, hrec]
      have h1 : attempt + 1 + r = attempt + (r + 1) := by omega
      have h2 : attempt + 1 + r - 1 = attempt + (r + 1) - 1 := by omega
      have h3 : expectedDelays b f jit rand attempt (r + 1 - 1) =
          (if jit then b * f ^ attempt * (1/2 + rand attempt)
           else b * f ^ attempt)
            :: expectedDelays b f jit rand (attempt + 1) (r - 1) := by
        have hr' : r + 1 - 1 = (r - 1) + 1 := by omega
        rw [hr', expectedDelays]
      rw [h3]
      simp [h1, h2]

lemma withRetryGo_success {E T : Type} (fn : Nat → Except E T) (b f : ℚ)
    (jit : Bool) (rand : Nat → ℚ) (v : T) :
    ∀ (r attempt j : Nat) (lastErr : Option E), j < r →
      fn (attempt + j) = Except.ok v →
      (∀ k, attempt ≤ k → k < attempt + j → ∃ er, fn k = Except.error er) →
      (withRetryGo fn b f jit rand r attempt lastErr).outcome = Except.ok v ∧
      (withRetryGo fn b f jit rand r attempt lastErr).calls = attempt + j + 1 := by
  intro r
  induction r with
  | zero => intro attempt j lastErr h; omega
  | succ r ih =>
    intro attempt j lastErr hj hok herr
    cases j with
    | zero =>
      have hfa : fn attempt = Except.ok v := by simpa using hok
      simp [withRetryGo, hfa]
    | succ j' =>
      obtain ⟨er, hfa⟩ := herr attempt (Nat.le_refl _) (by omega)
      have hr : r ≠ 0 := by omega
      have hrec := ih (attempt + 1) j' (some er) (by omega)
        (by rw [show attempt + 1 + j' = attempt + (j' + 1) by omega]; exact hok)
        (fun k hk1 hk2 => herr k (by omega) (by omega))
      simp only [withRetryGo, hfa, hr, if_false]
      refine ⟨hrec.1, ?_⟩
      rw [hrec.2]
      omega

lemma expectedDelays_getD (b f : ℚ) (jit : Bool) (rand : Nat → ℚ) :
    ∀ (n start k : Nat), k < n →
      (expectedDelays b f jit rand start n).getD k 0 =
        if jit then b * f ^ (start + k) * (1/2 + rand (start + k))
        else b * f ^ (start + k) := by
  intro n
  induction n with
  | zero => intro start k h; omega
  | succ n ih =>
    intro start k hk
    cases k with
    | zero => simp [expectedDelays]
    | succ k' =>
      have := ih (start + 1) k' (by omega)
      rw [expectedDelays]
      simpa [show start + 1 + k' = start + (k' + 1) by omega] using this

/-- C6: the backoff executor invokes the wrapped operation at most
`tries` times (default 3); when every attempt fails it performs exactly
`tries` calls, rethrows the last underlying error unchanged, and awaits
`tries - 1` delays whose `k`-th value is `baseMs * factor ^ k`, scaled by
`0.5 + Math.random()` — a factor in `[0.5, 1.5)` — when jitter is
enabled; and when attempt `j` succeeds its result is returned after
exactly `j + 1` invocations. -/
theorem withRetry_backoff_contract :
    (∀ (E T : Type) (fn : Nat → Except E T) (opts : RetryOptions)
        (rand : Nat → ℚ),
        (withRetry fn opts rand).calls ≤ opts.tries.getD 3) ∧
    (∀ (E T : Type) (fn : Nat → Except E T) (opts : RetryOptions)
        (rand : Nat → ℚ) (e : Nat → E),
        0 < opts.tries.getD 3 →
        (∀ k, k < opts.tries.getD 3 → fn k = Except.error (e k)) →
        withRetry fn opts rand =
          ⟨opts.tries.getD 3,
           expectedDelays (opts.baseMs.getD 250) (opts.factor.getD 2)
             (opts.jitter.getD true) rand 0 (opts.tries.getD 3 - 1),
           Except.error (some (e (opts.tries.getD 3 - 1)))⟩) ∧
    (∀ (b f : ℚ) (jit : Bool) (rand : Nat → ℚ) (n k : Nat), k < n →
        (expectedDelays b f jit rand 0 n).getD k 0 =
          if jit then b * f ^ k * (1/2 + rand k) else b * f ^ k) ∧
    (∀ (b f : ℚ) (rand : Nat → ℚ), 0 < b → 0 < f →
        (∀ k, 0 ≤ rand k ∧ rand k < 1) →
        ∀ (n k : Nat), k < n →
          1/2 * (b * f ^ k) ≤ (expectedDelays b f true rand 0 n).getD k 0 ∧
          (expectedDelays b f true rand 0 n).getD k 0 < 3/2 * (b * f ^ k)) ∧
    (∀ (E T : Type) (fn : Nat → Except E T) (opts : RetryOptions)
        (rand : Nat → ℚ) (v : T) (j : Nat),
        j < opts.tries.getD 3 →
        fn j = Except.ok v →
        (∀ k, k < j → ∃ er, fn k = Except.error er) →
        (withRetry fn opts rand).outcome = Except.ok v ∧
        (withRetry fn opts rand).calls = j + 1) := by
  refine ⟨?_, ?_, ?_, ?_, ?_⟩
  · intro E T fn opts rand
    simpa using withRetryGo_calls_le fn (opts.baseMs.getD 250)
      (opts.factor.getD 2) (opts.jitter.getD true) rand (opts.tries.getD 3) 0 none
  · intro E T fn opts rand e hpos herr
    have h := withRetryGo_allFail fn (opts.baseMs.getD 250)
      (opts.factor.getD 2) (opts.jitter.getD true) rand e (opts.tries.getD 3) 0
      none hpos (fun k _ hk => herr k (by omega))
    simpa using h
  · intro b f jit rand n k hk
    simpa using expectedDelays_getD b f jit rand n 0 k hk
  · intro b f rand hb hf hrand n k hk
    have hget := expectedDelays_getD b f true rand n 0 k hk
    simp at hget
    have hw : 0 < b * f ^ k := mul_pos hb (pow_pos hf k)
    have h0 := (hrand k).1
    have h1 := (hrand k).2
    simp only [List.getD_eq_getElem?_getD]
    rw [hget]
    constructor
    · nlinarith
    · nlinarith
  · intro E T fn opts rand v j hj hok herr
    have h := withRetryGo_success fn (opts.baseMs.getD 250)
      (opts.factor.getD 2) (opts.jitter.getD true) rand v (opts.tries.getD 3)
      0 j none hj (by simpa using hok) (fun k _ hk => herr k (by omega))
    simpa using h

/-- Witness for C6: the default options against an operation that always
fails — exactly three calls, two delays, the last error surfaced. -/
theorem withRetry_backoff_contract_witness :
    (0 : Nat) < 3 ∧
    withRetry (fun k => (Except.error k : Except Nat Nat))
        ⟨none, none, none, none⟩ (fun _ => 0) =
      ⟨3, expectedDelays 250 2 true (fun _ => 0) 0 2, Except.error (some 2)⟩ := by
  constructor
  · norm_num
  · have h := withRetry_backoff_contract.2.1 Nat Nat
      (fun k => Except.error k) ⟨none, none, none, none⟩ (fun _ => 0)
      (fun k => k) (by norm_num) (fun k _ => rfl)
    simpa using h

/-- C9: when the chat-completion response deviates from the expected
shape so that `choices?.[0]?.message` degrades to the empty object — in
particular when `choices[0]` or its message is absent — `runAssistant`
does not fault: it records an assistant message with no text and no tool
calls and terminates at once, returning the empty string as the final
answer. -/
theorem degraded_response_returns_empty_string
    (client : List Message → ToolChoice → ChatResponse)
    (parseJson : String → Option Json)
    (exec : String → Json → TodoStore → ToolExecutionResult × TodoStore)
    (init : List Message) (store : TodoStore)
    (h : responseMessage (client init ToolChoice.auto) =
      { content := none, tool_calls := [] }) :
    runAssistant client parseJson exec init store =
      ⟨[⟨ToolChoice.auto, client init ToolChoice.auto,
         Message.assistant none none, [], []⟩],
       RunOutcome.done "" (init ++ [Message.assistant none none]) store⟩ := by
  show runAssistantAux client parseJson exec MAX_TOOL_LOOPS init
    ToolChoice.auto store = _
  rw [show MAX_TOOL_LOOPS = 5 + 1 from rfl]
  simp [runAssistantAux, h]

/-- Witness for C9: a client whose response carries no `choices[0]`. -/
theorem degraded_response_returns_empty_string_witness :
    runAssistant (fun _ _ => ChatResponse.mk none) (fun _ => none)
        (fun _ _ s => (ToolExecutionResult.err "unused", s))
        [Message.user (some "hi")] ⟨[], 1⟩ =
      ⟨[⟨ToolChoice.auto, ChatResponse.mk none,
         Message.assistant none none, [], []⟩],
       RunOutcome.done ""
         [Message.user (some "hi"), Message.assistant none none] ⟨[], 1⟩⟩ := by
  have h := degraded_response_returns_empty_string
    (fun _ _ => ChatResponse.mk none) (fun _ => none)
    (fun _ _ s => (ToolExecutionResult.err "unused", s))
    [Message.user (some "hi")] ⟨[], 1⟩ rfl
  simpa using h

lemma runAssistantAux_length_le
    (client : List Message → ToolChoice → ChatResponse)
    (parseJson : String → Option Json)
    (exec : String → Json → TodoStore → ToolExecutionResult × TodoStore) :
    ∀ (fuel : Nat) (msgs : List Message) (tc : ToolChoice) (store : TodoStore),
      (runAssistantAux client parseJson exec fuel msgs tc store).iterations.length
        ≤ fuel := by
  intro fuel
  induction fuel with
  | zero => intro msgs tc store; simp [runAssistantAux]
  | succ fuel ih =>
    intro msgs tc store
    by_cases hemp : (responseMessage (client msgs tc)).tool_calls.isEmpty
    · simp [runAssistantAux, hemp]
    · simp only [runAssistantAux, hemp, if_false, List.length_cons]
      have h1 := ih
        (msgs ++ [Message.assistant (responseMessage (client msgs tc)).content
          (some (responseMessage (client msgs tc)).tool_calls)] ++
          (processToolCalls parseJson exec
            (responseMessage (client msgs tc)).tool_calls store).fst)
        (nextToolChoice
          (processToolCalls parseJson exec
            (responseMessage (client msgs tc)).tool_calls store).snd.fst)
        (processToolCalls parseJson exec
          (responseMessage (client msgs tc)).tool_calls store).snd.snd
      simp [hemp] at h1 ⊢
      omega

lemma runAssistantAux_allToolCalls
    (client : List Message → ToolChoice → ChatResponse)
    (parseJson : String → Option Json)
    (exec : String → Json → TodoStore → ToolExecutionResult × TodoStore)
    (hcalls : ∀ msgs tc, (responseMessage (client msgs tc)).tool_calls ≠ []) :
    ∀ (fuel : Nat) (msgs : List Message) (tc : ToolChoice) (store : TodoStore),
      (runAssistantAux client parseJson exec fuel msgs tc store).iterations.length
          = fuel ∧
      (runAssistantAux client parseJson exec fuel msgs tc store).outcome
          = RunOutcome.exceeded := by
  intro fuel
  induction fuel with
  | zero => intro msgs tc store; simp [runAssistantAux]
  | succ fuel ih =>
    intro msgs tc store
    have hemp : (responseMessage (client msgs tc)).tool_calls.isEmpty = false := by
      simpa [List.isEmpty_iff] using hcalls msgs tc
    simp [runAssistantAux, hemp]
    exact ⟨(ih _ _ _).1, (ih _ _ _).2⟩

/-- C2: `runAssistant` never performs more than `MAX_TOOL_LOOPS` (6)
iterations — each recorded iteration is exactly one chat-completion
call — and against a model that emits at least one tool call on every
response it performs exactly the cap of iterations and then raises the
`Assistant exceeded maximum tool iterations` error instead of returning
any (partial) answer. -/
theorem iteration_cap_exceeded :
    (∀ (client : List Message → ToolChoice → ChatResponse)
        (parseJson : String → Option Json)
        (exec : String → Json → TodoStore → ToolExecutionResult × TodoStore)
        (init : List Message) (store : TodoStore),
        (runAssistant client parseJson exec init store).iterations.length
          ≤ MAX_TOOL_LOOPS) ∧
    (∀ (client : List Message → ToolChoice → ChatResponse)
        (parseJson : String → Option Json)
        (exec : String → Json → TodoStore → ToolExecutionResult × TodoStore)
        (init : List Message) (store : TodoStore),
        (∀ msgs tc, (responseMessage (client msgs tc)).tool_calls ≠ []) →
        (runAssistant client parseJson exec init store).iterations.length
            = MAX_TOOL_LOOPS ∧
        (runAssistant client parseJson exec init store).outcome
            = RunOutcome.exceeded) := by
  constructor
  · intro client parseJson exec init store
    exact runAssistantAux_length_le client parseJson exec MAX_TOOL_LOOPS init
      ToolChoice.auto store
  · intro client parseJson exec init store hcalls
    exact runAssistantAux_allToolCalls client parseJson exec hcalls
      MAX_TOOL_LOOPS init ToolChoice.auto store

/-- Witness for C2: a client that always answers with one tool call;
the run performs exactly six iterations and ends in the cap error. -/
theorem iteration_cap_exceeded_witness :
    (∀ msgs tc, (responseMessage
        ((fun (_ : List Message) (_ : ToolChoice) =>
          ChatResponse.mk (some ⟨none, [⟨"c1", "nope", "x"⟩]⟩)) msgs tc)).tool_calls
        ≠ []) ∧
    (runAssistant
        (fun _ _ => ChatResponse.mk (some ⟨none, [⟨"c1", "nope", "x"⟩]⟩))
        (fun _ => none) (fun _ _ s => (ToolExecutionResult.err "boom", s))
        [] ⟨[], 1⟩).iterations.length = MAX_TOOL_LOOPS ∧
    (runAssistant
        (fun _ _ => ChatResponse.mk (some ⟨none, [⟨"c1", "nope", "x"⟩]⟩))
        (fun _ => none) (fun _ _ s => (ToolExecutionResult.err "boom", s))
        [] ⟨[], 1⟩).outcome = RunOutcome.exceeded := by
  have h := iteration_cap_exceeded.2
    (fun _ _ => ChatResponse.mk (some ⟨none, [⟨"c1", "nope", "x"⟩]⟩))
    (fun _ => none) (fun _ _ s => (ToolExecutionResult.err "boom", s))
    [] ⟨[], 1⟩ (fun msgs tc => by simp [responseMessage])
  exact ⟨fun msgs tc => by simp [responseMessage], h.1, h.2⟩

/-- The tool-choice discipline along a list of iteration records: the
first record carries the given mode, and each later record carries the
mode computed by `nextToolChoice` from its predecessor's results. -/
def ChainTC : ToolChoice → List IterationRecord → Prop
  | _, [] => True
  | tc, r :: rest => r.toolChoice = tc ∧ ChainTC (nextToolChoice r.results) rest

lemma runAssistantAux_chainTC
    (client : List Message → ToolChoice → ChatResponse)
    (parseJson : String → Option Json)
    (exec : String → Json → TodoStore → ToolExecutionResult × TodoStore) :
    ∀ (fuel : Nat) (msgs : List Message) (tc : ToolChoice) (store : TodoStore),
      ChainTC tc
        (runAssistantAux client parseJson exec fuel msgs tc store).iterations := by
  intro fuel
  induction fuel with
  | zero => intro msgs tc store; simp [runAssistantAux, ChainTC]
  | succ fuel ih =>
    intro msgs tc store
    by_cases hemp : (responseMessage (client msgs tc)).tool_calls.isEmpty
    · simp [runAssistantAux, hemp, ChainTC]
    · simp only [runAssistantAux, hemp, Bool.false_eq_true, if_false]
      exact ⟨rfl, ih _ _ _⟩

lemma ChainTC_head :
    ∀ (l : List IterationRecord) (tc : ToolChoice), ChainTC tc l →
      ∀ (h : 0 < l.length), (l.get ⟨0, h⟩).toolChoice = tc := by
  intro l tc hc h
  cases l with
  | nil => simp at h
  | cons r rest => exact hc.1

lemma ChainTC_get_succ :
    ∀ (l : List IterationRecord) (tc : ToolChoice), ChainTC tc l →
      ∀ (i : Nat) (h : i + 1 < l.length),
        (l.get ⟨i + 1, h⟩).toolChoice =
          nextToolChoice (l.get ⟨i, Nat.lt_of_succ_lt h⟩).results := by
  intro l
  induction l with
  | nil => intro tc hc i h; simp at h
  | cons r rest ih =>
    intro tc hc i h
    cases i with
    | zero =>
      have h0 : 0 < rest.length := by simpa using h
      have hh := ChainTC_head rest (nextToolChoice r.results) hc.2 h0
      simpa using hh
    | succ i' =>
      have hr := ih (nextToolChoice r.results) hc.2 i' (by simpa using h)
      simpa using hr

/-- C1: in every run of the orchestrator the tool-choice mode of the
first iteration is `auto`, and a later iteration's mode is `none` exactly
when every tool call of the immediately preceding iteration returned
`ok:true` (it stays `auto` when at least one returned `ok:false`). -/
theorem tool_choice_auto_then_forced_none
    (client : List Message → ToolChoice → ChatResponse)
    (parseJson : String → Option Json)
    (exec : String → Json → TodoStore → ToolExecutionResult × TodoStore)
    (init : List Message) (store : TodoStore) :
    (∀ h : 0 < (runAssistant client parseJson exec init store).iterations.length,
        ((runAssistant client parseJson exec init store).iterations.get
          ⟨0, h⟩).toolChoice = ToolChoice.auto) ∧
    (∀ (i : Nat)
        (h : i + 1 < (runAssistant client parseJson exec init store).iterations.length),
        (((runAssistant client parseJson exec init store).iterations.get
            ⟨i + 1, h⟩).toolChoice = ToolChoice.none ↔
          ((runAssistant client parseJson exec init store).iterations.get
            ⟨i, Nat.lt_of_succ_lt h⟩).results.all ToolExecutionResult.isOk
            = true)) := by
  have hc := runAssistantAux_chainTC client parseJson exec MAX_TOOL_LOOPS init
    ToolChoice.auto store
  simp only [runAssistant]
  constructor
  · intro h
    exact ChainTC_head _ _ hc h
  · intro i h
    have hstep := ChainTC_get_succ _ _ hc i h
    rw [hstep, nextToolChoice]
    by_cases hall :
        ((runAssistant client parseJson exec init store).iterations.get
          ⟨i, Nat.lt_of_succ_lt h⟩).results.all ToolExecutionResult.isOk = true
    · simp [hall]
    · simp [hall]

/-- A two-turn demonstration client: one failing tool call, then a plain
answer. -/
def demoClientTwoTurns : List Message → ToolChoice → ChatResponse :=
  fun msgs _ =>
    if msgs.length ≤ 1 then
      ChatResponse.mk (some ⟨none, [⟨"call-1", "mystery", "x"⟩]⟩)
    else ChatResponse.mk (some ⟨some "done", []⟩)

/-- Witness for C1: in the two-turn run the failed first-iteration tool
call keeps the second iteration's tool choice at `auto`. -/
theorem tool_choice_auto_then_forced_none_witness :
    0 + 1 < (runAssistant demoClientTwoTurns (fun _ => none)
        (fun _ _ s => (ToolExecutionResult.err "nope", s))
        [Message.user (some "hi")] ⟨[], 1⟩).iterations.length ∧
    ((runAssistant demoClientTwoTurns (fun _ => none)
        (fun _ _ s => (ToolExecutionResult.err "nope", s))
        [Message.user (some "hi")] ⟨[], 1⟩).iterations.getD 1
      ⟨ToolChoice.auto, ChatResponse.mk none, Message.assistant none none,
        [], []⟩).toolChoice = ToolChoice.auto := by
  have hlen : 0 + 1 < (runAssistant demoClientTwoTurns (fun _ => none)
      (fun _ _ s => (ToolExecutionResult.err "nope", s))
      [Message.user (some "hi")] ⟨[], 1⟩).iterations.length := by decide
  have hiff := (tool_choice_auto_then_forced_none demoClientTwoTurns
    (fun _ => none) (fun _ _ s => (ToolExecutionResult.err "nope", s))
    [Message.user (some "hi")] ⟨[], 1⟩).2 0 hlen
  have hall : ((runAssistant demoClientTwoTurns (fun _ => none)
      (fun _ _ s => (ToolExecutionResult.err "nope", s))
      [Message.user (some "hi")] ⟨[], 1⟩).iterations.get
        ⟨0, by decide⟩).results.all ToolExecutionResult.isOk
      = false := by decide
  have hne : ((runAssistant demoClientTwoTurns (fun _ => none)
      (fun _ _ s => (ToolExecutionResult.err "nope", s))
      [Message.user (some "hi")] ⟨[], 1⟩).iterations.get
        ⟨0 + 1, hlen⟩).toolChoice ≠ ToolChoice.none := by
    intro hcon
    have hres := hiff.mp hcon
    have hfalse : (false : Bool) = true := by rw [← hall]; exact hres
    simp at hfalse
  have hcases : ∀ t : ToolChoice, t ≠ ToolChoice.none → t = ToolChoice.auto := by
    intro t
    cases t <;> simp
  have hget : ((runAssistant demoClientTwoTurns (fun _ => none)
      (fun _ _ s => (ToolExecutionResult.err "nope", s))
      [Message.user (some "hi")] ⟨[], 1⟩).iterations.getD 1
      ⟨ToolChoice.auto, ChatResponse.mk none, Message.assistant none none,
        [], []⟩) = ((runAssistant demoClientTwoTurns (fun _ => none)
      (fun _ _ s => (ToolExecutionResult.err "nope", s))
      [Message.user (some "hi")] ⟨[], 1⟩).iterations.get ⟨0 + 1, by decide⟩) := by
    decide
  exact ⟨hlen, by rw [hget]; exact hcases _ hne⟩

lemma processToolCalls_zipWith (parseJson : String → Option Json)
    (exec : String → Json → TodoStore → ToolExecutionResult × TodoStore) :
    ∀ (calls : List ToolCall) (store : TodoStore),
      (processToolCalls parseJson exec calls store).fst =
        List.zipWith (fun c res => Message.tool c.id (stringifyResult res))
          calls (processToolCalls parseJson exec calls store).snd.fst ∧
      (processToolCalls parseJson exec calls store).snd.fst.length
        = calls.length := by
  intro calls
  induction calls with
  | nil => intro store; simp [processToolCalls]
  | cons call rest ih =>
    intro store
    simp only [processToolCalls, List.zipWith, List.length_cons]
    constructor
    · rw [(ih _).1]
    · rw [(ih _).2]

lemma runAssistantAux_record_shape
    (client : List Message → ToolChoice → ChatResponse)
    (parseJson : String → Option Json)
    (exec : String → Json → TodoStore → ToolExecutionResult × TodoStore) :
    ∀ (fuel : Nat) (msgs : List Message) (tc : ToolChoice) (store : TodoStore)
      (r : IterationRecord),
      r ∈ (runAssistantAux client parseJson exec fuel msgs tc store).iterations →
      r.assistantMessage = Message.assistant (responseMessage r.response).content
        (if (responseMessage r.response).tool_calls.isEmpty then none
         else some (responseMessage r.response).tool_calls) ∧
      r.results.length = (responseMessage r.response).tool_calls.length ∧
      r.toolMessages = List.zipWith
        (fun c res => Message.tool c.id (stringifyResult res))
        (responseMessage r.response).tool_calls r.results := by
  intro fuel
  induction fuel with
  | zero => intro msgs tc store r hr; simp [runAssistantAux] at hr
  | succ fuel ih =>
    intro msgs tc store r hr
    by_cases hemp : (responseMessage (client msgs tc)).tool_calls.isEmpty
    · simp only [runAssistantAux, hemp, if_true, List.mem_singleton] at hr
      subst hr
      have hnil : (responseMessage (client msgs tc)).tool_calls = [] := by
        simpa [List.isEmpty_iff] using hemp
      refine ⟨by simp [hemp], by simp [hnil], by simp [hnil]⟩
    · simp only [runAssistantAux, hemp, Bool.false_eq_true, if_false,
        List.mem_cons] at hr
      rcases hr with hr | hr
      · subst hr
        refine ⟨by simp [hemp], ?_, ?_⟩
        · exact (processToolCalls_zipWith parseJson exec _ _).2
        · exact (processToolCalls_zipWith parseJson exec _ _).1
      · exact ih _ _ _ r hr

lemma runAssistantAux_done_messages
    (client : List Message → ToolChoice → ChatResponse)
    (parseJson : String → Option Json)
    (exec : String → Json → TodoStore → ToolExecutionResult × TodoStore) :
    ∀ (fuel : Nat) (msgs : List Message) (tc : ToolChoice) (store : TodoStore)
      (c : String) (fm : List Message) (fs : TodoStore),
      (runAssistantAux client parseJson exec fuel msgs tc store).outcome
          = RunOutcome.done c fm fs →
      fm = msgs ++ (List.map (fun r => r.assistantMessage :: r.toolMessages)
        (runAssistantAux client parseJson exec fuel msgs tc store).iterations).flatten := by
  intro fuel
  induction fuel with
  | zero => intro msgs tc store c fm fs h; simp [runAssistantAux] at h
  | succ fuel ih =>
    intro msgs tc store c fm fs h
    by_cases hemp : (responseMessage (client msgs tc)).tool_calls.isEmpty
    · simp only [runAssistantAux, hemp, if_true, RunOutcome.done.injEq] at h ⊢
      obtain ⟨-, h2, -⟩ := h
      simp [← h2]
    · simp only [runAssistantAux, hemp, Bool.false_eq_true, if_false] at h ⊢
      have := ih _ _ _ _ _ _ h
      rw [this]
      simp

/-- C3: in every iteration the assistant message returned by the service
is appended to the history before any tool execution (the final history
decomposes as the initial messages followed, per iteration, by the
assistant message and then that iteration's tool messages); each tool
call of the iteration, processed sequentially in emission order, yields
exactly one tool message referencing its call id — no omissions and no
extras — and a call whose raw arguments fail to parse as JSON yields the
fixed negative result without invoking the dispatcher (the remaining
calls proceed from the unchanged store). -/
theorem assistant_then_one_tool_message_per_call
    (client : List Message → ToolChoice → ChatResponse)
    (parseJson : String → Option Json)
    (exec : String → Json → TodoStore → ToolExecutionResult × TodoStore)
    (init : List Message) (store : TodoStore) :
    (∀ (content : String) (fm : List Message) (fs : TodoStore),
        (runAssistant client parseJson exec init store).outcome
            = RunOutcome.done content fm fs →
        fm = init ++ (List.map (fun r => r.assistantMessage :: r.toolMessages)
          (runAssistant client parseJson exec init store).iterations).flatten) ∧
    (∀ r ∈ (runAssistant client parseJson exec init store).iterations,
        r.assistantMessage = Message.assistant (responseMessage r.response).content
          (if (responseMessage r.response).tool_calls.isEmpty then none
           else some (responseMessage r.response).tool_calls) ∧
        r.results.length = (responseMessage r.response).tool_calls.length ∧
        r.toolMessages = List.zipWith
          (fun c res => Message.tool c.id (stringifyResult res))
          (responseMessage r.response).tool_calls r.results) ∧
    (∀ (call : ToolCall) (rest : List ToolCall) (s : TodoStore),
        call.arguments ≠ "" → parseJson call.arguments = none →
        processToolCalls parseJson exec (call :: rest) s =
          (Message.tool call.id (stringifyResult
              (ToolExecutionResult.err "Invalid JSON arguments supplied to tool."))
             :: (processToolCalls parseJson exec rest s).fst,
           ToolExecutionResult.err "Invalid JSON arguments supplied to tool."
             :: (processToolCalls parseJson exec rest s).snd.fst,
           (processToolCalls parseJson exec rest s).snd.snd)) := by
  refine ⟨?_, ?_, ?_⟩
  · intro content fm fs h
    exact runAssistantAux_done_messages client parseJson exec MAX_TOOL_LOOPS
      init ToolChoice.auto store content fm fs h
  · intro r hr
    exact runAssistantAux_record_shape client parseJson exec MAX_TOOL_LOOPS
      init ToolChoice.auto store r hr
  · intro call rest s hne hparse
    simp [processToolCalls, hne, hparse]

/-- Witness for C3: a tool call whose arguments are not valid JSON gets
the fixed negative result and the executor is bypassed. -/
theorem assistant_then_one_tool_message_per_call_witness :
    (("x" : String) ≠ "") ∧
    processToolCalls (fun _ => none)
        (fun _ _ s => (ToolExecutionResult.err "boom", s))
        [⟨"c1", "mystery", "x"⟩] ⟨[], 1⟩ =
      (Message.tool "c1" (stringifyResult
          (ToolExecutionResult.err "Invalid JSON arguments supplied to tool."))
         :: (processToolCalls (fun _ => none)
              (fun _ _ s => (ToolExecutionResult.err "boom", s)) [] ⟨[], 1⟩).fst,
       ToolExecutionResult.err "Invalid JSON arguments supplied to tool."
         :: (processToolCalls (fun _ => none)
              (fun _ _ s => (ToolExecutionResult.err "boom", s)) [] ⟨[], 1⟩).snd.fst,
       (processToolCalls (fun _ => none)
          (fun _ _ s => (ToolExecutionResult.err "boom", s)) [] ⟨[], 1⟩).snd.snd) := by
  refine ⟨by decide, ?_⟩
  exact (assistant_then_one_tool_message_per_call
    (fun _ _ => ChatResponse.mk none) (fun _ => none)
    (fun _ _ s => (ToolExecutionResult.err "boom", s)) [] ⟨[], 1⟩).2.2
    ⟨"c1", "mystery", "x"⟩ [] ⟨[], 1⟩ (by decide) rfl

lemma filter_id_nil_of_find?_none (l : List TodoRecord) (n : Nat)
    (h : l.find? (fun r => r.id = n) = none) :
    l.filter (fun r => r.id = n) = [] := by
  rw [List.find?_eq_none] at h
  rw [List.filter_eq_nil_iff]
  intro a ha
  simpa using h a ha

lemma filter_id_length_one (n : Nat) :
    ∀ (l : List TodoRecord), (l.map TodoRecord.id).Nodup →
      ∀ t, t ∈ l → t.id = n →
        (l.filter (fun r => r.id = n)).length = 1 := by
  intro l
  induction l with
  | nil => intro _ t ht _; simp at ht
  | cons a l ih =>
    intro hn t ht hid
    simp only [List.map_cons, List.nodup_cons] at hn
    rcases List.mem_cons.mp ht with rfl | htl
    · have hfl : l.filter (fun r => r.id = n) = [] := by
        rw [List.filter_eq_nil_iff]
        intro b hb
        simp only [decide_eq_true_eq]
        intro hbn
        exact hn.1 (by
          rw [hid, ← hbn]
          exact List.mem_map_of_mem TodoRecord.id hb)
      simp [List.filter_cons, hid, hfl]
    · have hane : ¬ a.id = n := by
        intro hae
        apply hn.1
        have hm : t.id ∈ l.map TodoRecord.id := List.mem_map_of_mem _ htl
        rw [hid] at hm
        rw [hae]
        exact hm
      simp only [List.filter_cons, hane, decide_eq_true_eq, if_false]
      exact ih hn.2 t htl hid

lemma find?_id_of_mem :
    ∀ (l : List TodoRecord), (l.map TodoRecord.id).Nodup →
      ∀ c ∈ l, l.find? (fun r => r.id = c.id) = some c := by
  intro l
  induction l with
  | nil => intro _ c hc; simp at hc
  | cons a l ih =>
    intro hn c hc
    simp only [List.map_cons, List.nodup_cons] at hn
    rcases List.mem_cons.mp hc with rfl | hcl
    · simp [List.find?]
    · have hane : ¬ a.id = c.id := by
        intro hae
        apply hn.1
        have hm : c.id ∈ l.map TodoRecord.id := List.mem_map_of_mem _ hcl
        rw [hae]
        exact hm
      rw [List.find?_cons_of_neg _ (by simpa using hane)]
      exact ih hn.2 c hcl

lemma markDoneById_not_found (s : TodoStore) (n : Nat) (d : Bool)
    (now : String) (h : s.findById n = none) :
    (s.markDoneById n d now).fst = none := by
  have hfl := filter_id_nil_of_find?_none s.todos n h
  simp [TodoStore.markDoneById, hfl]

lemma markDoneById_found (s : TodoStore) (n : Nat) (d : Bool) (now : String)
    (hn : (s.todos.map TodoRecord.id).Nodup) (t : TodoRecord)
    (h : s.findById n = some t) :
    (s.markDoneById n d now).fst =
      some { t with done := if d then 1 else 0, updated_at := now } ∧
    ((s.markDoneById n d now).snd.todos.map TodoRecord.id)
      = s.todos.map TodoRecord.id ∧
    (s.markDoneById n d now).snd.findById n =
      some { t with done := if d then 1 else 0, updated_at := now } := by
  have hmem : t ∈ s.todos := List.mem_of_find?_eq_some h
  have hid : t.id = n := by simpa using List.find?_some h
  have hone := filter_id_length_one n s.todos hn t hmem hid
  have hupd : ∀ r : TodoRecord,
      (if r.id = n then
        { r with done := if d then 1 else 0, updated_at := now } else r).id
        = r.id := by
    intro r
    by_cases hr : r.id = n <;> simp [hr]
  have hfind : (s.todos.map (fun r =>
      if r.id = n then
        { r with done := if d then 1 else 0, updated_at := now }
      else r)).find? (fun r => r.id = n) =
      some { t with done := if d then 1 else 0, updated_at := now } := by
    rw [List.find?_map]
    have hpf : ((fun (r : TodoRecord) => decide (r.id = n)) ∘ (fun r =>
        if r.id = n then
          { r with done := if d then 1 else 0, updated_at := now }
        else r)) = (fun r => decide (r.id = n)) := by
      funext r
      simp [Function.comp, hupd r]
    rw [hpf]
    rw [show List.find? (fun r => decide (r.id = n)) s.todos = some t from h]
    simp [hid]
  have hids : ((s.todos.map (fun r =>
      if r.id = n then
        { r with done := if d then 1 else 0, updated_at := now }
      else r)).map TodoRecord.id) = s.todos.map TodoRecord.id := by
    rw [List.map_map]
    exact List.map_congr_left (fun r _ => hupd r)
  refine ⟨?_, ?_, ?_⟩
  · simp only [TodoStore.markDoneById, hone, if_true, TodoStore.findById]
    simpa using hfind
  · simpa [TodoStore.markDoneById] using hids
  · simp only [TodoStore.markDoneById, TodoStore.findById]
    simpa using hfind

lemma deleteById_found (s : TodoStore) (n : Nat)
    (hn : (s.todos.map TodoRecord.id).Nodup) (t : TodoRecord)
    (h : s.findById n = some t) :
    (s.deleteById n).fst = true := by
  have hmem : t ∈ s.todos := List.mem_of_find?_eq_some h
  have hid : t.id = n := by simpa using List.find?_some h
  have hone := filter_id_length_one n s.todos hn t hmem hid
  simp [TodoStore.deleteById, hone]

/-- Canonical `check_done` arguments targeting a numeric id. -/
def checkArgsById (n : Nat) : Json :=
  Json.obj
    [("selector", Json.obj
      [("kind", Json.str "id"), ("id", Json.num (n : ℚ)),
       ("title", Json.null)]),
     ("done", Json.bool true)]

/-- Canonical selector JSON targeting an exact title. -/
def selByTitle (t : String) : Json :=
  Json.obj [("kind", Json.str "title"), ("id", Json.null),
    ("title", Json.str t)]

/-- Canonical `delete_todo` arguments targeting an exact title. -/
def deleteArgsByTitle (t : String) : Json :=
  Json.obj [("selector", selByTitle t)]

/-- Canonical `check_done` arguments targeting an exact title. -/
def checkArgsByTitle (t : String) : Json :=
  Json.obj [("selector", selByTitle t), ("done", Json.bool true)]

lemma parse_checkArgsById (n : Nat) (hpos : 0 < n) :
    CheckDoneArgs.parse (checkArgsById n) =
      Except.ok ⟨⟨SelKind.id, some n, none⟩, true⟩ := by
  have hden : ((n : ℚ).den = 1 ∧ 0 < (n : ℚ).num) = True := by
    simp [Rat.den_natCast, Rat.num_natCast]
    exact_mod_cast hpos
  simp [CheckDoneArgs.parse, checkArgsById, SelectorSchema.parse,
    Json.getField, Json.keys, hden, hpos, Bind.bind, Except.bind]

lemma parse_selByTitle (t : String) (h1 : 1 ≤ t.length)
    (h2 : t.length ≤ 200) (h3 : jsTrim t ≠ "") :
    SelectorSchema.parse (selByTitle t) =
      Except.ok ⟨SelKind.title, none, some t⟩ := by
  simp [SelectorSchema.parse, selByTitle, Json.getField, Json.keys, h1, h2,
    h3, Bind.bind, Except.bind]

lemma parse_deleteArgsByTitle (t : String) (h1 : 1 ≤ t.length)
    (h2 : t.length ≤ 200) (h3 : jsTrim t ≠ "") :
    DeleteTodoArgs.parse (deleteArgsByTitle t) =
      Except.ok ⟨⟨SelKind.title, none, some t⟩⟩ := by
  simp [DeleteTodoArgs.parse, deleteArgsByTitle, Json.getField, Json.keys,
    parse_selByTitle t h1 h2 h3, Except.map]

lemma parse_checkArgsByTitle (t : String) (h1 : 1 ≤ t.length)
    (h2 : t.length ≤ 200) (h3 : jsTrim t ≠ "") :
    CheckDoneArgs.parse (checkArgsByTitle t) =
      Except.ok ⟨⟨SelKind.title, none, some t⟩, true⟩ := by
  simp [CheckDoneArgs.parse, checkArgsByTitle, Json.getField, Json.keys,
    parse_selByTitle t h1 h2 h3, Bind.bind, Except.bind]

lemma execute_check_by_id_not_found (dateParse : String → Bool)
    (s : TodoStore) (n : Nat) (now : String) (hpos : 0 < n)
    (h : s.findById n = none) :
    ToolExecutor.execute dateParse "check_done" (checkArgsById n) s now =
      (ToolExecutionResult.err "No todo exists with that id.",
       (s.markDoneById n true now).snd) := by
  have hp := parse_checkArgsById n hpos
  have hm := markDoneById_not_found s n true now h
  simp only [ToolExecutor.execute, ToolExecutor.handleCheck, hp, Bind.bind,
    Except.bind, ToolExecutor.resolveId]
  cases hsm : s.markDoneById n true now with
  | mk u s2 =>
    rw [hsm] at hm
    simp only at hm
    subst hm
    simp

lemma execute_check_by_id_found (dateParse : String → Bool)
    (s : TodoStore) (n : Nat) (now : String) (hpos : 0 < n)
    (hnodup : (s.todos.map TodoRecord.id).Nodup) (t : TodoRecord)
    (h : s.findById n = some t) :
    ToolExecutor.execute dateParse "check_done" (checkArgsById n) s now =
      (ToolExecutionResult.ok (ToolData.check
        (toModelView { t with done := 1, updated_at := now })),
       (s.markDoneById n true now).snd) := by
  have hp := parse_checkArgsById n hpos
  have hm := (markDoneById_found s n true now hnodup t h).1
  simp only [if_true] at hm
  simp only [ToolExecutor.execute, ToolExecutor.handleCheck, hp, Bind.bind,
    Except.bind, ToolExecutor.resolveId]
  cases hsm : s.markDoneById n true now with
  | mk u s2 =>
    rw [hsm] at hm
    simp only at hm
    subst hm
    simp

/-- C8: dispatching `check_done` for an id with no corresponding todo
returns `ok:false` with the "No todo exists with that id." message, and
dispatching it twice in succession with `done:true` for an existing todo
is idempotent — both dispatches return `ok:true` and after each one the
todo's `done` view is `true`. -/
theorem check_done_idempotent
    (dateParse : String → Bool) (s : TodoStore) (n : Nat)
    (now1 now2 : String) (hpos : 0 < n)
    (hnodup : (s.todos.map TodoRecord.id).Nodup) :
    (s.findById n = none →
      (ToolExecutor.execute dateParse "check_done" (checkArgsById n) s
        now1).fst = ToolExecutionResult.err "No todo exists with that id.") ∧
    (∀ t, s.findById n = some t →
      (ToolExecutor.execute dateParse "check_done" (checkArgsById n) s
          now1).fst
        = ToolExecutionResult.ok (ToolData.check
            (toModelView { t with done := 1, updated_at := now1 })) ∧
      (toModelView { t with done := 1, updated_at := now1 }).done = true ∧
      (ToolExecutor.execute dateParse "check_done" (checkArgsById n)
          (ToolExecutor.execute dateParse "check_done" (checkArgsById n) s
            now1).snd now2).fst
        = ToolExecutionResult.ok (ToolData.check
            (toModelView { t with done := 1, updated_at := now2 })) ∧
      (toModelView { t with done := 1, updated_at := now2 }).done = true) := by
  constructor
  · intro h
    rw [execute_check_by_id_not_found dateParse s n now1 hpos h]
  · intro t h
    have h1 := execute_check_by_id_found dateParse s n now1 hpos hnodup t h
    have hfound := markDoneById_found s n true now1 hnodup t h
    have hnodup2 : (((s.markDoneById n true now1).snd).todos.map
        TodoRecord.id).Nodup := by
      rw [hfound.2.1]
      exact hnodup
    have hfind2 : ((s.markDoneById n true now1).snd).findById n =
        some { t with done := 1, updated_at := now1 } := by
      have := hfound.2.2
      simpa using this
    have h2 := execute_check_by_id_found dateParse
      ((s.markDoneById n true now1).snd) n now2 hpos hnodup2
      { t with done := 1, updated_at := now1 } hfind2
    refine ⟨by rw [h1], by simp [toModelView], ?_, by simp [toModelView]⟩
    rw [h1]
    simp only at h2 ⊢
    rw [h2]

/-- Witness for C8: a one-todo store; marking id 1 done twice returns
`ok:true` with a `done:true` view both times. -/
theorem check_done_idempotent_witness :
    (0 < 1) ∧
    (ToolExecutor.execute (fun _ => false) "check_done" (checkArgsById 1)
        ⟨[⟨1, "milk", none, none, 0, 0, "t0", "t0"⟩], 2⟩ "t1").fst
      = ToolExecutionResult.ok (ToolData.check
          (toModelView ⟨1, "milk", none, none, 0, 1, "t0", "t1"⟩)) ∧
    (ToolExecutor.execute (fun _ => false) "check_done" (checkArgsById 1)
        (ToolExecutor.execute (fun _ => false) "check_done" (checkArgsById 1)
          ⟨[⟨1, "milk", none, none, 0, 0, "t0", "t0"⟩], 2⟩ "t1").snd "t2").fst
      = ToolExecutionResult.ok (ToolData.check
          (toModelView ⟨1, "milk", none, none, 0, 1, "t0", "t2"⟩)) := by
  have h := (check_done_idempotent (fun _ => false)
    ⟨[⟨1, "milk", none, none, 0, 0, "t0", "t0"⟩], 2⟩ 1 "t1" "t2"
    (by decide) (by decide)).2
    ⟨1, "milk", none, none, 0, 0, "t0", "t0"⟩ rfl
  exact ⟨by decide, h.1, h.2.2.1⟩

lemma resolveId_title (s : TodoStore) (t : String) (h3 : jsTrim t ≠ "") :
    ToolExecutor.resolveId s ⟨SelKind.title, none, some t⟩ =
      (match s.findByExactTitle (jsTrim t) with
       | [] => Except.error "No todo exists with that exact title."
       | [c] => Except.ok c.id
       | _ :: _ :: _ => Except.error
          "Multiple todos share that title. Ask the user for the id to disambiguate.") := by
  simp [ToolExecutor.resolveId, h3]

lemma execute_delete_by_title (dateParse : String → Bool) (s : TodoStore)
    (t : String) (now : String) (h1 : 1 ≤ t.length) (h2 : t.length ≤ 200)
    (h3 : jsTrim t ≠ "") (hnodup : (s.todos.map TodoRecord.id).Nodup) :
    ToolExecutor.execute dateParse "delete_todo" (deleteArgsByTitle t) s now =
      (match s.findByExactTitle (jsTrim t) with
       | [] => (ToolExecutionResult.err "No todo exists with that exact title.", s)
       | [c] => (ToolExecutionResult.ok (ToolData.delete c.id),
           ⟨s.todos.filter (fun r => ¬r.id = c.id), s.nextId⟩)
       | _ :: _ :: _ => (ToolExecutionResult.err
          "Multiple todos share that title. Ask the user for the id to disambiguate.", s)) := by
  have hp := parse_deleteArgsByTitle t h1 h2 h3
  have hr := resolveId_title s t h3
  simp only [ToolExecutor.execute, ToolExecutor.handleDelete, hp, Bind.bind,
    Except.bind, hr]
  cases hfind : s.findByExactTitle (jsTrim t) with
  | nil => simp
  | cons c cs =>
    cases cs with
    | nil =>
      have hc : c ∈ s.todos := by
        have : c ∈ s.findByExactTitle (jsTrim t) := by rw [hfind]; simp
        exact List.mem_of_mem_filter this
      have hfid : s.findById c.id = some c :=
        find?_id_of_mem s.todos hnodup c hc
      have hone := filter_id_length_one c.id s.todos hnodup c hc rfl
      simp [hone, TodoStore.deleteById]
    | cons c2 cs2 => simp

lemma execute_check_by_title (dateParse : String → Bool) (s : TodoStore)
    (t : String) (now : String) (h1 : 1 ≤ t.length) (h2 : t.length ≤ 200)
    (h3 : jsTrim t ≠ "") (hnodup : (s.todos.map TodoRecord.id).Nodup) :
    ToolExecutor.execute dateParse "check_done" (checkArgsByTitle t) s now =
      (match s.findByExactTitle (jsTrim t) with
       | [] => (ToolExecutionResult.err "No todo exists with that exact title.", s)
       | [c] => (ToolExecutionResult.ok (ToolData.check
            (toModelView { c with done := 1, updated_at := now })),
           (s.markDoneById c.id true now).snd)
       | _ :: _ :: _ => (ToolExecutionResult.err
          "Multiple todos share that title. Ask the user for the id to disambiguate.", s)) := by
  have hp := parse_checkArgsByTitle t h1 h2 h3
  have hr := resolveId_title s t h3
  simp only [ToolExecutor.execute, ToolExecutor.handleCheck, hp, Bind.bind,
    Except.bind, hr]
  cases hfind : s.findByExactTitle (jsTrim t) with
  | nil => simp
  | cons c cs =>
    cases cs with
    | nil =>
      have hc : c ∈ s.todos := by
        have : c ∈ s.findByExactTitle (jsTrim t) := by rw [hfind]; simp
        exact List.mem_of_mem_filter this
      have hfid : s.findById c.id = some c :=
        find?_id_of_mem s.todos hnodup c hc
      have hm := (markDoneById_found s c.id true now hnodup c hfid).1
      simp only [if_true] at hm
      simp [hm]
    | cons c2 cs2 => simp

/-- C4 (amended): for a `kind=title` selector, resolution first trims
leading/trailing whitespace from the selector's title and then matches
todos by exact, case-sensitive, full-string comparison against the
trimmed title: zero matches return `ok:false` with "No todo exists with
that exact title." and leave the store untouched; exactly one match uses
that todo's id and returns `ok:true`; two or more matches return
`ok:false` with the disambiguation message and never pick one of them. -/
theorem title_selector_trimmed_exact_resolution
    (dateParse : String → Bool) (s : TodoStore) (t : String) (now : String)
    (h1 : 1 ≤ t.length) (h2 : t.length ≤ 200) (h3 : jsTrim t ≠ "")
    (hnodup : (s.todos.map TodoRecord.id).Nodup) :
    (s.findByExactTitle (jsTrim t) = [] →
      ToolExecutor.execute dateParse "delete_todo" (deleteArgsByTitle t) s now
        = (ToolExecutionResult.err "No todo exists with that exact title.", s) ∧
      ToolExecutor.execute dateParse "check_done" (checkArgsByTitle t) s now
        = (ToolExecutionResult.err "No todo exists with that exact title.", s)) ∧
    (∀ c, s.findByExactTitle (jsTrim t) = [c] →
      ToolExecutor.execute dateParse "delete_todo" (deleteArgsByTitle t) s now
        = (ToolExecutionResult.ok (ToolData.delete c.id),
           ⟨s.todos.filter (fun r => ¬r.id = c.id), s.nextId⟩) ∧
      (ToolExecutor.execute dateParse "check_done" (checkArgsByTitle t) s
          now).fst
        = ToolExecutionResult.ok (ToolData.check
            (toModelView { c with done := 1, updated_at := now }))) ∧
    (∀ c1 c2 cs, s.findByExactTitle (jsTrim t) = c1 :: c2 :: cs →
      ToolExecutor.execute dateParse "delete_todo" (deleteArgsByTitle t) s now
        = (ToolExecutionResult.err
            "Multiple todos share that title. Ask the user for the id to disambiguate.",
           s) ∧
      ToolExecutor.execute dateParse "check_done" (checkArgsByTitle t) s now
        = (ToolExecutionResult.err
            "Multiple todos share that title. Ask the user for the id to disambiguate.",
           s)) := by
  have hdel := execute_delete_by_title dateParse s t now h1 h2 h3 hnodup
  have hchk := execute_check_by_title dateParse s t now h1 h2 h3 hnodup
  refine ⟨?_, ?_, ?_⟩
  · intro hfind
    rw [hfind] at hdel hchk
    exact ⟨hdel, hchk⟩
  · intro c hfind
    rw [hfind] at hdel hchk
    exact ⟨hdel, by rw [hchk]⟩
  · intro c1 c2 cs hfind
    rw [hfind] at hdel hchk
    exact ⟨hdel, hchk⟩

/-- Counterexample for C4 as stated: in a store holding exactly one todo
whose title is `" milk "`, the selector title `" milk "` matches that
todo exactly (case-sensitively, full string), yet dispatch reports that
no todo with that exact title exists, because `resolveId` trims the
selector title to `"milk"` before the lookup. -/
theorem title_selector_literal_exact_counterexample :
    ((TodoStore.mk [⟨1, " milk ", none, none, 0, 0, "t0", "t0"⟩] 2).todos.filter
        (fun r => r.title = " milk ")).length = 1 ∧
    ToolExecutor.execute (fun _ => false) "check_done"
        (checkArgsByTitle " milk ")
        ⟨[⟨1, " milk ", none, none, 0, 0, "t0", "t0"⟩], 2⟩ "t1"
      = (ToolExecutionResult.err "No todo exists with that exact title.",
         ⟨[⟨1, " milk ", none, none, 0, 0, "t0", "t0"⟩], 2⟩) := by
  constructor
  · decide
  · decide

/-- Witness for C4 (amended): a one-todo store and the exact title
`"milk"` — delete by title succeeds using the matched todo's id. -/
theorem title_selector_trimmed_exact_resolution_witness :
    (TodoStore.mk [⟨1, "milk", none, none, 0, 0, "t0", "t0"⟩] 2).findByExactTitle
        (jsTrim "milk") = [⟨1, "milk", none, none, 0, 0, "t0", "t0"⟩] ∧
    ToolExecutor.execute (fun _ => false) "delete_todo"
        (deleteArgsByTitle "milk")
        ⟨[⟨1, "milk", none, none, 0, 0, "t0", "t0"⟩], 2⟩ "t1"
      = (ToolExecutionResult.ok (ToolData.delete 1), ⟨[], 2⟩) := by
  have h := ((title_selector_trimmed_exact_resolution (fun _ => false)
    ⟨[⟨1, "milk", none, none, 0, 0, "t0", "t0"⟩], 2⟩ "milk" "t1"
    (by decide) (by decide) (by decide) (by decide)).2.1
    ⟨1, "milk", none, none, 0, 0, "t0", "t0"⟩ (by decide)).1
  refine ⟨by decide, ?_⟩
  rw [h]
  decide

/-- A selector with `kind=id` but no id supplied. -/
def selIdMissing : Json :=
  Json.obj [("kind", Json.str "id"), ("id", Json.null), ("title", Json.null)]

/-- A selector with `kind=title` but no title supplied. -/
def selTitleMissing : Json :=
  Json.obj [("kind", Json.str "title"), ("id", Json.null),
    ("title", Json.null)]

/-- C5 (amended): a selector naming `kind=id` without a numeric id, or
`kind=title` without a non-empty title, is rejected by the schema
validation before `resolveId` runs: the dispatcher returns `ok:false`
with a message beginning `Validation error:` that wraps the schema's
field-specific refinement message; `resolveId`'s own
`Missing identifier…` branches are unreachable through dispatch. -/
theorem missing_identifier_caught_by_validation
    (dateParse : String → Bool) (s : TodoStore) (now : String) :
    (ToolExecutor.execute dateParse "delete_todo"
        (Json.obj [("selector", selIdMissing)]) s now
      = (ToolExecutionResult.err
          ("Validation error: " ++
            "Provide the numeric id when selector.kind is \x22id\x22."), s)) ∧
    (ToolExecutor.execute dateParse "delete_todo"
        (Json.obj [("selector", selTitleMissing)]) s now
      = (ToolExecutionResult.err
          ("Validation error: " ++
            "Provide the exact title when selector.kind is \x22title\x22."), s)) ∧
    (ToolExecutor.execute dateParse "check_done"
        (Json.obj [("selector", selIdMissing), ("done", Json.bool true)]) s now
      = (ToolExecutionResult.err
          ("Validation error: " ++
            "Provide the numeric id when selector.kind is \x22id\x22."), s)) ∧
    (ToolExecutor.execute dateParse "check_done"
        (Json.obj [("selector", selTitleMissing), ("done", Json.bool true)])
        s now
      = (ToolExecutionResult.err
          ("Validation error: " ++
            "Provide the exact title when selector.kind is \x22title\x22."), s)) := by
  refine ⟨?_, ?_, ?_, ?_⟩ <;> rfl

/-- Counterexample for C5 as stated: dispatching `delete_todo` with a
`kind=id` selector lacking the id returns `ok:false`, but its message
begins `Validation error:`, not `Missing identifier`. -/
theorem missing_identifier_message_counterexample :
    (ToolExecutor.execute (fun _ => false) "delete_todo"
        (Json.obj [("selector", selIdMissing)]) ⟨[], 1⟩ "t0").fst.isOk
      = false ∧
    (("Missing identifier".toList).isPrefixOf
      ((ToolExecutor.execute (fun _ => false) "delete_todo"
        (Json.obj [("selector", selIdMissing)]) ⟨[], 1⟩
          "t0").fst.message.toList)) = false ∧
    (("Validation error:".toList).isPrefixOf
      ((ToolExecutor.execute (fun _ => false) "delete_todo"
        (Json.obj [("selector", selIdMissing)]) ⟨[], 1⟩
          "t0").fst.message.toList)) = true := by
  refine ⟨by decide, by decide, by decide⟩

/-- Witness for C5 (amended): the id-missing delete dispatch evaluated
against the empty store. -/
theorem missing_identifier_caught_by_validation_witness :
    ToolExecutor.execute (fun _ => false) "delete_todo"
        (Json.obj [("selector", selIdMissing)]) ⟨[], 1⟩ "t0"
      = (ToolExecutionResult.err
          ("Validation error: " ++
            "Provide the numeric id when selector.kind is \x22id\x22."),
         ⟨[], 1⟩) :=
  (missing_identifier_caught_by_validation (fun _ => false) ⟨[], 1⟩ "t0").1

/-- C10: `ToolExecutor.execute` is total — every result is the uniform
`{ok:true, data}` / `{ok:false, message}` envelope, an unknown tool name
yields `Unknown tool: <name>` without an exception, and any validation
failure raised inside a handler is caught and converted to an `ok:false`
result whose message begins `Validation error:`. -/
theorem execute_total_envelope (dateParse : String → Bool) :
    (∀ (name : String) (raw : Json) (s : TodoStore) (now : String),
        ¬name = "add_todo" → ¬name = "delete_todo" → ¬name = "check_done" →
        ToolExecutor.execute dateParse name raw s now
          = (ToolExecutionResult.err ("Unknown tool: " ++ name), s)) ∧
    (∀ (raw : Json) (s : TodoStore) (now m : String),
        AddTodoArgs.parse dateParse raw = Except.error m →
        ToolExecutor.execute dateParse "add_todo" raw s now
          = (ToolExecutionResult.err ("Validation error: " ++ m), s)) ∧
    (∀ (raw : Json) (s : TodoStore) (now m : String),
        DeleteTodoArgs.parse raw = Except.error m →
        ToolExecutor.execute dateParse "delete_todo" raw s now
          = (ToolExecutionResult.err ("Validation error: " ++ m), s)) ∧
    (∀ (raw : Json) (s : TodoStore) (now m : String),
        CheckDoneArgs.parse raw = Except.error m →
        ToolExecutor.execute dateParse "check_done" raw s now
          = (ToolExecutionResult.err ("Validation error: " ++ m), s)) ∧
    (∀ (name : String) (raw : Json) (s : TodoStore) (now : String),
        (∃ d, (ToolExecutor.execute dateParse name raw s now).fst
            = ToolExecutionResult.ok d) ∨
        (∃ msg, (ToolExecutor.execute dateParse name raw s now).fst
            = ToolExecutionResult.err msg)) := by
  refine ⟨?_, ?_, ?_, ?_, ?_⟩
  · intro name raw s now h1 h2 h3
    unfold ToolExecutor.execute
    split
    · exact absurd rfl h1
    · exact absurd rfl h2
    · exact absurd rfl h3
    · rfl
  · intro raw s now m hp
    simp [ToolExecutor.execute, ToolExecutor.handleAdd, hp, Bind.bind,
      Except.bind]
  · intro raw s now m hp
    simp [ToolExecutor.execute, ToolExecutor.handleDelete, hp, Bind.bind,
      Except.bind]
  · intro raw s now m hp
    simp [ToolExecutor.execute, ToolExecutor.handleCheck, hp, Bind.bind,
      Except.bind]
  · intro name raw s now
    cases h : (ToolExecutor.execute dateParse name raw s now).fst with
    | ok d => exact Or.inl ⟨d, rfl⟩
    | err m => exact Or.inr ⟨m, rfl⟩

/-- Witness for C10: an unknown tool name and a non-object `add_todo`
argument, both evaluated against the empty store. -/
theorem execute_total_envelope_witness :
    ¬("frobnicate" : String) = "add_todo" ∧
    ToolExecutor.execute (fun _ => false) "frobnicate" Json.null ⟨[], 1⟩ "t0"
      = (ToolExecutionResult.err ("Unknown tool: " ++ "frobnicate"),
         ⟨[], 1⟩) ∧
    AddTodoArgs.parse (fun _ => false) Json.null
      = Except.error "Expected object for add_todo arguments" ∧
    ToolExecutor.execute (fun _ => false) "add_todo" Json.null ⟨[], 1⟩ "t0"
      = (ToolExecutionResult.err
          ("Validation error: " ++ "Expected object for add_todo arguments"),
         ⟨[], 1⟩) := by
  refine ⟨by decide, ?_, rfl, ?_⟩
  · exact (execute_total_envelope (fun _ => false)).1 "frobnicate" Json.null
      ⟨[], 1⟩ "t0" (by decide) (by decide) (by decide)
  · exact (execute_total_envelope (fun _ => false)).2.1 Json.null ⟨[], 1⟩
      "t0" "Expected object for add_todo arguments" rfl
